import Mathlib

/-
  Shallow embedding of the id-card fraud-detection agent
  (altf4m88/v2-id-card-fraud-detection).

  Embedded sources:
  - src/tools/database_tools.py : `insert_id_card_tool` (field mapping,
    composite-field splitting, required-field gate, insertion outcomes)
  - src/main.py : `AgentState`, `agent_node`, `tool_node` (dispatch layer with
    the string-argument repair), `router`, the compiled graph's edges, and the
    `/upload` handler's stream loop with its step budget.

  Python dictionaries are embedded as ordered association lists, Python values
  as the inductive `PyVal` (None / str / dict), and effects are made explicit:
  fallible code returns `Option`/`Except`, the dispatch layer additionally
  returns the list of capability invocations it performed, and external
  collaborators (vision model, sqlite, smtp, the reasoning engine,
  `ast.literal_eval`) are parameters of an `Env` record.
-/

namespace IdCard

/-- Embedding of the Python values that flow through the tools: `None`,
strings, and (ordered) dictionaries with string keys. -/
inductive PyVal where
  | none : PyVal
  | str : String → PyVal
  | dict : List (String × PyVal) → PyVal

/-- A Python dict with string keys, as an ordered association list. -/
abbrev PyDict := List (String × PyVal)

mutual

/-- Decidable equality of embedded Python values. -/
def pyDecEq : (a b : PyVal) → Decidable (a = b)
  | PyVal.none, PyVal.none => Decidable.isTrue rfl
  | PyVal.none, PyVal.str _ => Decidable.isFalse (fun h => PyVal.noConfusion h)
  | PyVal.none, PyVal.dict _ => Decidable.isFalse (fun h => PyVal.noConfusion h)
  | PyVal.str _, PyVal.none => Decidable.isFalse (fun h => PyVal.noConfusion h)
  | PyVal.str s, PyVal.str t =>
      match String.decEq s t with
      | Decidable.isTrue h => Decidable.isTrue (by rw [h])
      | Decidable.isFalse h => Decidable.isFalse (fun hh => h (by injection hh))
  | PyVal.str _, PyVal.dict _ => Decidable.isFalse (fun h => PyVal.noConfusion h)
  | PyVal.dict _, PyVal.none => Decidable.isFalse (fun h => PyVal.noConfusion h)
  | PyVal.dict _, PyVal.str _ => Decidable.isFalse (fun h => PyVal.noConfusion h)
  | PyVal.dict d, PyVal.dict e =>
      match pyDecEqL d e with
      | Decidable.isTrue h => Decidable.isTrue (by rw [h])
      | Decidable.isFalse h => Decidable.isFalse (fun hh => h (by injection hh))

/-- Decidable equality of embedded Python dict entry lists. -/
def pyDecEqL : (d e : List (String × PyVal)) → Decidable (d = e)
  | [], [] => Decidable.isTrue rfl
  | [], _ :: _ => Decidable.isFalse (fun h => List.noConfusion h)
  | _ :: _, [] => Decidable.isFalse (fun h => List.noConfusion h)
  | (k, v) :: r, (k2, v2) :: r2 =>
      match String.decEq k k2 with
      | Decidable.isFalse h =>
          Decidable.isFalse (fun hh => by
            injection hh with h1 h2
            exact h (congrArg Prod.fst h1))
      | Decidable.isTrue h1 =>
          match pyDecEq v v2 with
          | Decidable.isFalse h =>
              Decidable.isFalse (fun hh => by
                injection hh with ha hb
                exact h (congrArg Prod.snd ha))
          | Decidable.isTrue h2 =>
              match pyDecEqL r r2 with
              | Decidable.isFalse h =>
                  Decidable.isFalse (fun hh => by
                    injection hh with ha hb
                    exact h hb)
              | Decidable.isTrue h3 =>
                  Decidable.isTrue (by rw [h1, h2, h3])

end

instance : DecidableEq PyVal := pyDecEq

instance {ε α : Type} [DecidableEq ε] [DecidableEq α] : DecidableEq (Except ε α) := fun a b =>
  match a, b with
  | Except.error e, Except.error f =>
      if h : e = f then Decidable.isTrue (by rw [h])
      else Decidable.isFalse (fun hh => h (by injection hh))
  | Except.error _, Except.ok _ => Decidable.isFalse (fun h => Except.noConfusion h)
  | Except.ok _, Except.error _ => Decidable.isFalse (fun h => Except.noConfusion h)
  | Except.ok x, Except.ok y =>
      if h : x = y then Decidable.isTrue (by rw [h])
      else Decidable.isFalse (fun hh => h (by injection hh))

/-- `d.get(k)` returning `Option.none` when the key is absent
(first occurrence wins, as keys of a Python dict are unique). -/
def pyGet : PyDict → String → Option PyVal
  | [], _ => Option.none
  | (k, v) :: rest, key => if k = key then Option.some v else pyGet rest key

/-- `d.get(k)`: Python returns `None` for an absent key. -/
def pyGetD (d : PyDict) (key : String) : PyVal :=
  (pyGet d key).getD PyVal.none

/-- `d[k] = v`: replace the value at an existing key in place, else append
(Python dicts preserve insertion order). -/
def dictSet : PyDict → String → PyVal → PyDict
  | [], key, v => [(key, v)]
  | (k, w) :: rest, key, v =>
      if k = key then (key, v) :: rest else (k, w) :: dictSet rest key v

/-- Python truthiness of a value: `None`, `""` and `{}` are falsy. -/
def pyTruthy : PyVal → Bool
  | PyVal.none => false
  | PyVal.str s => !s.isEmpty
  | PyVal.dict d => !d.isEmpty

/-- Python `str.split(sep)` on a list of characters: splits at every
occurrence of `sep`, keeping empty segments; always returns at least one
segment. -/
def pySplit (sep : Char) : List Char → List (List Char)
  | [] => [[]]
  | c :: rest =>
      let ps := pySplit sep rest
      if c = sep then [] :: ps
      else
        match ps with
        | p :: tl => (c :: p) :: tl
        | [] => [[c]]

/-- Python `str.split(sep)` for `String`. -/
def pySplitS (sep : Char) (s : String) : List String :=
  (pySplit sep s.data).map (fun l => String.mk l)

/-- Python `str.strip()`: drop whitespace from both ends. -/
def pyStrip (l : List Char) : List Char :=
  ((l.dropWhile Char.isWhitespace).reverse.dropWhile Char.isWhitespace).reverse

/-- Python `str.strip()` for `String`. -/
def pyStripS (s : String) : String :=
  String.mk (pyStrip s.data)

mutual

/-- Python `repr` of a value (used by `str` on nested dict entries). -/
def pyRepr : PyVal → String
  | PyVal.none => "None"
  | PyVal.str s => "'" ++ s ++ "'"
  | PyVal.dict es => "\x7b" ++ pyReprFields es ++ "\x7d"

/-- `repr` of the comma-separated entries of a dict. -/
def pyReprFields : List (String × PyVal) → String
  | [] => ""
  | (k, v) :: rest =>
      "'" ++ k ++ "': " ++ pyRepr v ++
        (if rest.isEmpty then "" else ", ") ++ pyReprFields rest

end

/-- Python `str(v)` as used for `ToolMessage(content=str(output), ...)`:
a top-level string prints bare, everything else prints like `repr`. -/
def pyStr : PyVal → String
  | PyVal.str s => s
  | v => pyRepr v

/- ------------------------------------------------------------------
   src/tools/database_tools.py, lines 44–126: insert_id_card_tool
   ------------------------------------------------------------------ -/

/-- `key_mapping` of src/tools/database_tools.py lines 51–65: AI output
keys to database columns. -/
def key_mapping : List (String × String) :=
  [("NIK", "nik"),
   ("Nama", "nama"),
   ("Jenis Kelamin", "jenis_kelamin"),
   ("Gol. Darah", "gol_darah"),
   ("Alamat", "alamat"),
   ("RT/RW", "rt_rw"),
   ("Kel/Desa", "kel_desa"),
   ("Kecamatan", "kecamatan"),
   ("Agama", "agama"),
   ("Status Perkawinan", "status_perkawinan"),
   ("Kewarganegaraan", "kewarganegaraan"),
   ("Berlaku Hingga", "berlaku_hingga"),
   ("Place and Date of Creation", "place_of_creation")]

/-- Lines 68–70: build `db_record` by renaming keys; `data.get(ai_key)`
yields `None` for an absent source key. -/
def rename_record (data : PyDict) : PyDict :=
  key_mapping.foldl (fun r p => dictSet r p.2 (pyGetD data p.1)) []

/-- Lines 73–83: split the combined birth field.  `Option.none` is the
caught-exception path (the source's `except` returns the fixed
parse-error result); splitting a truthy non-string raises there. -/
def split_birth (data : PyDict) (r : PyDict) : Option PyDict :=
  match pyGet data ("Tempat/Tgl Lahir") with
  | Option.some v =>
      if pyTruthy v then
        match v with
        | PyVal.str s =>
            let parts := pySplitS (',') s
            let r1 := dictSet r ("tempat_lahir") (PyVal.str (pyStripS (parts.headD "")))
            if parts.length > 1 then
              Option.some (dictSet r1 ("tanggal_lahir")
                (PyVal.str (pyStripS ((parts.get? 1).getD ""))))
            else
              Option.some (dictSet r1 ("tanggal_lahir") PyVal.none)
        | _ => Option.none
      else Option.some r
  | Option.none => Option.some r

/-- Lines 86–90: split `place_of_creation` on spaces.  This block is outside
any `try`, so a truthy non-string value raises an uncaught exception,
embedded as `Except.error`. -/
def split_place (r : PyDict) : Except String PyDict :=
  let v := pyGetD r ("place_of_creation")
  if pyTruthy v then
    match v with
    | PyVal.str s =>
        let parts := pySplitS (' ') s
        let r1 := dictSet r ("place_of_creation") (PyVal.str (pyStripS (parts.headD "")))
        if parts.length > 1 then
          Except.ok (dictSet r1 ("date_of_creation")
            (PyVal.str (pyStripS (String.intercalate (" ") (parts.drop 1)))))
        else Except.ok r1
    | _ => Except.error ("AttributeError: object has no attribute split")
  else Except.ok r

/-- Outcome of the mapping stage (lines 50–90) of `insert_id_card_tool`. -/
inductive MapResult where
  | raised : String → MapResult
  | parseErr : MapResult
  | ok : PyDict → MapResult
deriving DecidableEq

/-- Lines 50–90: rename, then the two composite-field splits. -/
def mapped_record (data : PyDict) : MapResult :=
  let r0 := rename_record data
  match split_birth data r0 with
  | Option.none => MapResult.parseErr
  | Option.some r1 =>
      match split_place r1 with
      | Except.error e => MapResult.raised e
      | Except.ok r2 => MapResult.ok r2

/-- `required_db_keys` of lines 94–97: the columns the validation gate
requires to be truthy (note: `place_of_creation` and `date_of_creation`
are not in this list, matching their nullable columns in
src/database_setup.py). -/
def required_db_keys : List String :=
  ["nik", "nama", "tempat_lahir", "tanggal_lahir", "jenis_kelamin", "alamat", "rt_rw",
   "kel_desa", "kecamatan", "agama", "status_perkawinan", "kewarganegaraan", "berlaku_hingga"]

/-- Line 99: `[key for key in required_db_keys if not db_record.get(key)]`. -/
def missing_keys (r : PyDict) : List String :=
  required_db_keys.filter (fun k => !pyTruthy (pyGetD r k))

/-- Where `insert_id_card_tool` stands after the mapping/validation stage
(lines 50–103): early-returned parse error, rejection naming the missing
columns, or ready to insert. -/
inductive InsertOutcome where
  | parseError : InsertOutcome
  | reject : List String → InsertOutcome
  | proceed : PyDict → InsertOutcome
deriving DecidableEq

/-- Lines 50–103 of `insert_id_card_tool`: everything before the database
insertion.  `Except.error` is an uncaught Python exception. -/
def insert_stage (data : PyDict) : Except String InsertOutcome :=
  match mapped_record data with
  | MapResult.raised e => Except.error e
  | MapResult.parseErr => Except.ok InsertOutcome.parseError
  | MapResult.ok r =>
      if missing_keys r = [] then Except.ok (InsertOutcome.proceed r)
      else Except.ok (InsertOutcome.reject (missing_keys r))

/-- Outcome of the sqlite insertion at lines 111–126 once every binding
parameter of the statement is supplied — an external collaborator:
commit, unique-key violation, or other database error. -/
inductive DbOutcome where
  | ok : DbOutcome
  | integrityError : DbOutcome
  | sqliteError : String → DbOutcome
deriving DecidableEq

/-- The named parameters bound by the INSERT statement of lines 107–110,
in query order. -/
def bind_params : List String :=
  ["nik", "nama", "tempat_lahir", "tanggal_lahir", "jenis_kelamin", "gol_darah", "alamat",
   "rt_rw", "kel_desa", "kecamatan", "agama", "status_perkawinan", "kewarganegaraan",
   "berlaku_hingga", "place_of_creation", "date_of_creation"]

/-- The first INSERT binding parameter with no key in the record, if any:
`cursor.execute` at line 114 deterministically raises `ProgrammingError`
for such a parameter before touching the table, and the
`except sqlite3.Error` at line 121 turns it into an error status.  A key
whose value is `None` binds NULL and is fine; only an absent key trips
this, and after a passed validation gate the only key that can be absent
is `date_of_creation` (issuance field absent, empty or single-token). -/
def missing_binding (r : PyDict) : Option String :=
  bind_params.find? (fun k => (pyGet r k).isNone)

/-- The error result for an unsupplied binding parameter. -/
def bindingErrResult (k : String) : PyVal :=
  PyVal.dict [("status", PyVal.str ("error")),
              ("error", PyVal.str ("You did not supply a value for binding parameter :" ++ k))]

/-- The fixed parse-error result of line 83. -/
def parseErrResult : PyVal :=
  PyVal.dict [("status", PyVal.str ("error")),
              ("error", PyVal.str ("Failed to parse 'Tempat/Tgl Lahir' field."))]

/-- The rejection result of lines 100–103, naming the missing columns. -/
def rejectResult (missing : List String) : PyVal :=
  PyVal.dict [("status", PyVal.str ("error")),
              ("error", PyVal.str ("After parsing, required fields are still missing: " ++
                String.intercalate (", ") missing))]

/-- `insert_id_card_tool` (src/tools/database_tools.py lines 44–126) as a
function of the sqlite outcome and the `data` argument.  Every caught
failure becomes a status dict; `Except.error` is an uncaught exception. -/
def insert_id_card_tool (db : DbOutcome) (data : PyDict) : Except String PyVal :=
  match insert_stage data with
  | Except.error e => Except.error e
  | Except.ok InsertOutcome.parseError => Except.ok parseErrResult
  | Except.ok (InsertOutcome.reject missing) => Except.ok (rejectResult missing)
  | Except.ok (InsertOutcome.proceed r) =>
      match missing_binding r with
      | Option.some k => Except.ok (bindingErrResult k)
      | Option.none =>
          match db with
          | DbOutcome.ok =>
              Except.ok (PyVal.dict
                [("status", PyVal.str ("success")),
                 ("message", PyVal.str ("Record for NIK " ++ pyStr (pyGetD r ("nik")) ++
                   " added successfully."))])
          | DbOutcome.integrityError =>
              Except.ok (PyVal.dict
                [("status", PyVal.str ("error")),
                 ("error", PyVal.str ("This NIK already exists in the database."))])
          | DbOutcome.sqliteError m =>
              Except.ok (PyVal.dict
                [("status", PyVal.str ("error")), ("error", PyVal.str m)])

/- ------------------------------------------------------------------
   src/main.py: messages, dispatch layer, router, graph, loop
   ------------------------------------------------------------------ -/

/-- A tool-call request emitted by the reasoner (name, argument dict and
opaque correlation id), as consumed at src/main.py lines 60–62. -/
structure ToolCall where
  name : String
  args : PyDict
  id : String
deriving DecidableEq

/-- The messages of the LangChain history: the initial human prompt, an AI
message carrying tool calls, and a `ToolMessage` correlated by call id. -/
inductive Msg where
  | human : String → Msg
  | ai : (content : String) → (tool_calls : List ToolCall) → Msg
  | tool : (content : String) → (tool_call_id : String) → Msg
deriving DecidableEq

/-- `message.tool_calls` (empty on a non-AI message). -/
def msgToolCalls : Msg → List ToolCall
  | Msg.ai _ tcs => tcs
  | _ => []

/-- `state["messages"][-1].tool_calls` as read at src/main.py lines 57
and 126. -/
def last_tool_calls (msgs : List Msg) : List ToolCall :=
  match msgs.getLast? with
  | Option.some m => msgToolCalls m
  | Option.none => []

/-- `AgentState` of src/main.py lines 33–35: the appended message history
and the optional analysis verdict (absent until the analysis tool runs). -/
structure AgentState where
  messages : List Msg
  analysis_result : Option PyVal
deriving DecidableEq

/-- External collaborators of the core, passed in explicitly: the three
opaque capabilities (vision analysis, duplicate check, fraud email), the
sqlite outcome for an insertion, `ast.literal_eval`, and the reasoning
engine (`llm_with_tools.invoke`, returning content and tool calls). -/
structure Env where
  analyze : PyDict → PyVal
  checkDup : PyDict → PyVal
  notify : PyDict → PyVal
  db : DbOutcome
  literal_eval : String → Option PyVal
  reasoner : List Msg → String × List ToolCall

/-- The fixed tool registry of src/main.py line 40. -/
def tool_registry : List String :=
  ["analyze_id_card_tool", "check_duplicate_nik_tool", "insert_id_card_tool", "notify_fraud_tool"]

/-- What one pass of the `tool_node` loop accumulates: the `tool_outputs`
list, the (possibly re-written) `analysis_result`, and — to make the side
effect explicit — the log of capability invocations actually performed. -/
structure DispatchOut where
  outputs : List Msg
  analysis : Option PyVal
  invoked : List (String × PyDict)
deriving DecidableEq

/-- The malformed-argument tool result synthesized at src/main.py line 75. -/
def malformedArgMsg (callId : String) : Msg :=
  Msg.tool ("Error: The 'data' argument was a malformed string and could not be parsed.")
    callId

/-- Lines 80–92 of src/main.py: resolve the (possibly repaired) call
against the registry and invoke the capability; an unresolved name is the
raised `ValueError`, and an exception out of a capability propagates.
Invoking the persistence tool with a non-dict `data` raises the schema
validation error of the tool wrapper. -/
def invoke_tool (env : Env) (acc : DispatchOut) (name : String) (args : PyDict)
    (callId : String) : Except String DispatchOut :=
  if name = "analyze_id_card_tool" then
    let output := env.analyze args
    Except.ok
      { outputs := acc.outputs ++ [Msg.tool (pyStr output) callId],
        analysis := Option.some output,
        invoked := acc.invoked ++ [(name, args)] }
  else if name = "check_duplicate_nik_tool" then
    let output := env.checkDup args
    Except.ok
      { outputs := acc.outputs ++ [Msg.tool (pyStr output) callId],
        analysis := acc.analysis,
        invoked := acc.invoked ++ [(name, args)] }
  else if name = "insert_id_card_tool" then
    match pyGet args ("data") with
    | Option.some (PyVal.dict d) =>
        match insert_id_card_tool env.db d with
        | Except.error e => Except.error e
        | Except.ok output =>
            Except.ok
              { outputs := acc.outputs ++ [Msg.tool (pyStr output) callId],
                analysis := acc.analysis,
                invoked := acc.invoked ++ [(name, args)] }
    | _ => Except.error ("ValidationError: data is not a dict")
  else if name = "notify_fraud_tool" then
    let output := env.notify args
    Except.ok
      { outputs := acc.outputs ++ [Msg.tool (pyStr output) callId],
        analysis := acc.analysis,
        invoked := acc.invoked ++ [(name, args)] }
  else Except.error ("Tool '" ++ name ++ "' not found.")

/-- One iteration of the `for call in tool_calls` loop (src/main.py lines
60–92): the string-argument repair for the persistence tool, then the
invocation. -/
def dispatch_call (env : Env) (acc : DispatchOut) (call : ToolCall) :
    Except String DispatchOut :=
  match
    (if call.name = "insert_id_card_tool" then
       match pyGet call.args ("data") with
       | Option.some (PyVal.str s) => Option.some s
       | _ => Option.none
     else Option.none)
  with
  | Option.some s =>
      match env.literal_eval s with
      | Option.some v =>
          invoke_tool env acc call.name (dictSet call.args ("data") v) call.id
      | Option.none =>
          Except.ok
            { outputs := acc.outputs ++ [malformedArgMsg call.id],
              analysis := acc.analysis,
              invoked := acc.invoked }
  | Option.none => invoke_tool env acc call.name call.args call.id

/-- The whole `for` loop of `tool_node`, threading the accumulator through
the batch in order. -/
def dispatch_calls (env : Env) (acc : DispatchOut) : List ToolCall → Except String DispatchOut
  | [] => Except.ok acc
  | c :: rest =>
      match dispatch_call env acc c with
      | Except.error e => Except.error e
      | Except.ok acc2 => dispatch_calls env acc2 rest

/-- `tool_node` of src/main.py lines 55–94: dispatch every tool call of the
last message, starting from the current `analysis_result` and an empty
output batch. -/
def tool_node (env : Env) (state : AgentState) : Except String DispatchOut :=
  dispatch_calls env
    { outputs := [], analysis := state.analysis_result, invoked := [] }
    (last_tool_calls state.messages)

/-- `agent_node` of src/main.py lines 49–52 combined with the `add_messages`
reducer of `AgentState`: the reasoner's response is appended to the
history (the reducer's documented behavior for fresh messages), and no
other channel is written. -/
def agent_node (env : Env) (state : AgentState) : AgentState :=
  let resp := env.reasoner state.messages
  { messages := state.messages ++ [Msg.ai resp.1 resp.2],
    analysis_result := state.analysis_result }

/-- The `tools` node as a state transition: the dispatched results are
appended to the history and the analysis write of `tool_node` takes
effect on the state observed by the router (spec §4.2 step 4); the batch
invocation log is returned alongside.  `Except.error` is an exception
escaping `tool_node`. -/
def tools_step (env : Env) (state : AgentState) :
    Except String (AgentState × List (String × PyDict)) :=
  match tool_node env state with
  | Except.error e => Except.error e
  | Except.ok d =>
      Except.ok
        ({ messages := state.messages ++ d.outputs, analysis_result := d.analysis },
         d.invoked)

/-- `state.get('analysis_result', {}).get('status')` of src/main.py line 99:
an absent verdict defaults to the empty dict (hence status `None`); calling
`.get` on a non-dict verdict would raise, embedded as `Except.error`. -/
def analysis_status (state : AgentState) : Except String PyVal :=
  match state.analysis_result with
  | Option.none => Except.ok PyVal.none
  | Option.some (PyVal.dict d) => Except.ok (pyGetD d ("status"))
  | Option.some _ => Except.error ("AttributeError: object has no attribute get")

/-- `router` of src/main.py lines 97–110: the next-step decision from the
status of the last analysis verdict. -/
def router (state : AgentState) : Except String String :=
  match analysis_status state with
  | Except.error e => Except.error e
  | Except.ok status =>
      if status = PyVal.str ("success") then Except.ok ("check_duplicate_nik_tool")
      else if status = PyVal.str ("potential_fraud") ∨
          status = PyVal.str ("image_quality_failure") then Except.ok ("notify_fraud_tool")
      else Except.ok ("agent")

/-- The nodes of the compiled graph (src/main.py lines 113–140): the two
added nodes plus LangGraph's terminal `END`. -/
inductive Node where
  | agent : Node
  | tools : Node
  | endNode : Node
deriving DecidableEq

/-- The name a node is registered under in the graph builder. -/
def nodeName : Node → String
  | Node.agent => "agent"
  | Node.tools => "tools"
  | Node.endNode => "__end__"

/-- The conditional edge out of `agent` (src/main.py lines 123–133):
`"tools" if state["messages"][-1].tool_calls else END`. -/
def route_from_agent (state : AgentState) : Node :=
  if last_tool_calls state.messages = [] then Node.endNode else Node.tools

/-- The edge out of `tools` (src/main.py line 137): unconditionally back to
`agent`. -/
def route_from_tools (_state : AgentState) : Node := Node.agent

/-- The successor function of the compiled graph: which node runs next
after the given node produced the given state. -/
def graph_successor : Node → AgentState → Node
  | Node.agent, st => route_from_agent st
  | Node.tools, st => route_from_tools st
  | Node.endNode, _ => Node.endNode

/-- What `graph.stream` hands back to the `/upload` handler: the final
state, the accumulated capability-invocation log, the `agent`-node event
messages in emission order, whether `END` was reached within the budget,
and the number of node executions performed. -/
structure RunResult where
  state : AgentState
  invoked : List (String × PyDict)
  agentEvents : List Msg
  completed : Bool
  steps : Nat
deriving DecidableEq

/-- Modelled from the spec: LangGraph's `graph.stream(…, {"recursion_limit": 15})`
loop is not part of this repository's sources; per spec §4.3 and §7(d) it is
a bounded alternation of node executions that is fatally aborted once the
step budget is exhausted without reaching the terminal node.  Each recursive
step executes the current node, appends its event, and follows the compiled
successor edge; an exception out of a node propagates. -/
def run_graph (env : Env) : Nat → Node → AgentState → List (String × PyDict) →
    List Msg → Nat → Except String RunResult
  | fuel, node, st, log, events, steps =>
    match node with
    | Node.endNode =>
        Except.ok
          { state := st, invoked := log, agentEvents := events,
            completed := true, steps := steps }
    | _ =>
        match fuel with
        | 0 =>
            Except.ok
              { state := st, invoked := log, agentEvents := events,
                completed := false, steps := steps }
        | fuel' + 1 =>
            match node with
            | Node.agent =>
                let st2 := agent_node env st
                run_graph env fuel' (graph_successor Node.agent st2) st2 log
                  (events ++ [Msg.ai (env.reasoner st.messages).1 (env.reasoner st.messages).2])
                  (steps + 1)
            | Node.tools =>
                match tools_step env st with
                | Except.error e => Except.error e
                | Except.ok (st2, blog) =>
                    run_graph env fuel' (graph_successor Node.tools st2) st2 (log ++ blog)
                      events (steps + 1)
            | Node.endNode =>
                Except.ok
                  { state := st, invoked := log, agentEvents := events,
                    completed := true, steps := steps }

/-- The recursion limit passed to `graph.stream` at src/main.py line 185. -/
def recursion_limit : Nat := 15

/-- The fallback diagnostic of src/main.py line 180. -/
def no_final_response : String := "Agent did not produce a final response."

/-- The event loop of src/main.py lines 187–191: the final response is the
content of the last `agent` event that carried content and no tool calls,
defaulting to the fixed diagnostic. -/
def final_from_events (events : List Msg) : String :=
  events.foldl
    (fun acc m =>
      match m with
      | Msg.ai c tcs => if tcs = [] ∧ ¬c.isEmpty then c else acc
      | _ => acc)
    no_final_response

/-- The core of the `/upload` handler (src/main.py lines 178–198): stream
the graph from the initial human message with the fixed recursion limit;
an escaped exception is caught and rendered (line 194), otherwise the
final response is folded out of the `agent` events. -/
def upload_response (env : Env) (initial_message : Msg) : String :=
  match run_graph env recursion_limit Node.agent
      { messages := [initial_message], analysis_result := Option.none } [] [] 0 with
  | Except.error e => "An error occurred: " ++ e
  | Except.ok r => final_from_events r.agentEvents

/- ------------------------------------------------------------------
   Supporting lemmas about the dictionary and splitting primitives
   ------------------------------------------------------------------ -/

theorem pyGet_dictSet_self (d : PyDict) (k : String) (v : PyVal) :
    pyGet (dictSet d k v) k = Option.some v := by
  induction d with
  | nil => simp [dictSet, pyGet]
  | cons kv rest ih =>
      obtain ⟨k1, v1⟩ := kv
      by_cases h : k1 = k
      · simp [dictSet, h, pyGet]
      · simp [dictSet, h, pyGet, ih]

theorem pyGet_dictSet_ne (d : PyDict) (k k2 : String) (v : PyVal) (h : k2 ≠ k) :
    pyGet (dictSet d k v) k2 = pyGet d k2 := by
  induction d with
  | nil => simp [dictSet, pyGet, Ne.symm h]
  | cons kv rest ih =>
      obtain ⟨k1, v1⟩ := kv
      by_cases h1 : k1 = k
      · subst h1
        simp [dictSet, pyGet, Ne.symm h]
      · simp [dictSet, h1, pyGet, ih]

theorem pyGetD_dictSet_self (d : PyDict) (k : String) (v : PyVal) :
    pyGetD (dictSet d k v) k = v := by
  simp [pyGetD, pyGet_dictSet_self]

theorem pyGetD_dictSet_ne (d : PyDict) (k k2 : String) (v : PyVal) (h : k2 ≠ k) :
    pyGetD (dictSet d k v) k2 = pyGetD d k2 := by
  simp [pyGetD, pyGet_dictSet_ne _ _ _ _ h]

theorem pySplit_no_sep (sep : Char) (l : List Char) (h : sep ∉ l) :
    pySplit sep l = [l] := by
  induction l with
  | nil => rfl
  | cons c rest ih =>
      simp only [List.mem_cons, not_or] at h
      have hc : ¬ c = sep := fun hh => h.1 hh.symm
      simp [pySplit, hc, ih h.2]

theorem pySplit_append (sep : Char) (a b : List Char) (h : sep ∉ a) :
    pySplit sep (a ++ sep :: b) = a :: pySplit sep b := by
  induction a with
  | nil => simp [pySplit]
  | cons c a2 ih =>
      simp only [List.mem_cons, not_or] at h
      have hc : ¬ c = sep := fun hh => h.1 hh.symm
      simp [pySplit, hc, ih h.2]

/- ------------------------------------------------------------------
   C1 and C2: the router and the compiled graph's edges
   ------------------------------------------------------------------ -/

/-- C1: the router is total over the four verdict status tags plus the
absent-verdict case: a `success` verdict routes to the duplicate-check
step, `potential_fraud` and `image_quality_failure` route to the
fraud-notify step, and an absent verdict or any other status routes back
to the agent loop — in every case it returns normally, with no state
write. -/
theorem router_total_on_verdicts :
    ∀ (st : AgentState) (d : PyDict),
      (st.analysis_result = Option.some (PyVal.dict d) →
        ((pyGetD d ("status") = PyVal.str ("success") →
            router st = Except.ok ("check_duplicate_nik_tool")) ∧
         (pyGetD d ("status") = PyVal.str ("potential_fraud") ∨
            pyGetD d ("status") = PyVal.str ("image_quality_failure") →
            router st = Except.ok ("notify_fraud_tool")) ∧
         (pyGetD d ("status") ≠ PyVal.str ("success") →
          pyGetD d ("status") ≠ PyVal.str ("potential_fraud") →
          pyGetD d ("status") ≠ PyVal.str ("image_quality_failure") →
            router st = Except.ok ("agent")))) ∧
      (st.analysis_result = Option.none → router st = Except.ok ("agent")) := by
  intro st d
  constructor
  · intro hst
    refine ⟨?_, ?_, ?_⟩
    · intro h
      simp [router, analysis_status, hst, h]
    · intro h
      rcases h with h | h <;> simp [router, analysis_status, hst, h]
    · intro h1 h2 h3
      simp [router, analysis_status, hst, h1, h2, h3]
  · intro hst
    simp [router, analysis_status, hst]

/-- Closed instantiation of `router_total_on_verdicts` at the four status
tags and the absent-verdict case. -/
theorem router_total_on_verdicts_witness :
    router ⟨[], Option.some (PyVal.dict [("status", PyVal.str ("success"))])⟩ =
      Except.ok ("check_duplicate_nik_tool") ∧
    router ⟨[], Option.some (PyVal.dict [("status", PyVal.str ("potential_fraud"))])⟩ =
      Except.ok ("notify_fraud_tool") ∧
    router ⟨[], Option.some (PyVal.dict [("status", PyVal.str ("image_quality_failure"))])⟩ =
      Except.ok ("notify_fraud_tool") ∧
    router ⟨[], Option.some (PyVal.dict [("status", PyVal.str ("error"))])⟩ =
      Except.ok ("agent") ∧
    router ⟨[], Option.none⟩ = Except.ok ("agent") :=
  ⟨((router_total_on_verdicts _ _).1 rfl).1 (by decide),
   ((router_total_on_verdicts _ _).1 rfl).2.1 (Or.inl (by decide)),
   ((router_total_on_verdicts _ _).1 rfl).2.1 (Or.inr (by decide)),
   ((router_total_on_verdicts _ _).1 rfl).2.2 (by decide) (by decide) (by decide),
   (router_total_on_verdicts ⟨[], Option.none⟩ []).2 rfl⟩

/-- C2 counterexample: at a state whose captured verdict has status
`success`, the router chooses the duplicate-check step, but the compiled
graph's edge out of the `tools` node goes to `agent` unconditionally —
the compiled step relation does not consult the router. -/
theorem graph_never_consults_router_cex :
    router ⟨[], Option.some (PyVal.dict [("status", PyVal.str ("success"))])⟩ =
      Except.ok ("check_duplicate_nik_tool") ∧
    graph_successor Node.tools
        ⟨[], Option.some (PyVal.dict [("status", PyVal.str ("success"))])⟩ = Node.agent ∧
    nodeName Node.agent ≠ "check_duplicate_nik_tool" := by
  refine ⟨by decide, rfl, by decide⟩

/-- C2 as amended: after every tool-dispatch step the compiled graph
transitions unconditionally back to the agent node — the successor of
`tools` is the same for all states, whatever the captured verdict — so
the router function, though defined, is never consulted by the step
relation; routing to the duplicate-check or fraud-notify tools is left to
the reasoner's prompt. -/
theorem graph_tools_edge_unconditional :
    ∀ st st2 : AgentState,
      graph_successor Node.tools st = Node.agent ∧
      graph_successor Node.tools st = graph_successor Node.tools st2 :=
  fun _ _ => ⟨rfl, rfl⟩

/- ------------------------------------------------------------------
   C4, C5, C10: the mapper's splits and required-field gate
   ------------------------------------------------------------------ -/

theorem data_ne_nil_isEmpty (s : String) (h : s.data ≠ []) : s.isEmpty = false := by
  by_contra hb
  rw [Bool.not_eq_false] at hb
  have h2 : s = "" := (String.isEmpty_iff s).mp hb
  subst h2
  exact h rfl

theorem pySplit_ne_nil (sep : Char) (l : List Char) : pySplit sep l ≠ [] := by
  induction l with
  | nil => simp [pySplit]
  | cons c rest ih =>
      by_cases h : c = sep
      · simp [pySplit, h]
      · simp only [pySplit, h, if_false]
        cases hq : pySplit sep rest with
        | nil => simp
        | cons p tl => simp

theorem split_birth_no_comma (data r : PyDict) (s : String)
    (hget : pyGet data ("Tempat/Tgl Lahir") = Option.some (PyVal.str s))
    (hne : s.data ≠ []) (hc : (',') ∉ s.data) :
    split_birth data r =
      Option.some (dictSet (dictSet r ("tempat_lahir") (PyVal.str (pyStripS s)))
        ("tanggal_lahir") PyVal.none) := by
  have hie : s.isEmpty = false := data_ne_nil_isEmpty s hne
  unfold split_birth
  rw [hget]
  simp [pyTruthy, hie, pySplitS, pySplit_no_sep (',') s.data hc, pyStripS]

theorem split_birth_segments (data r : PyDict) (s : String) (a rest : List Char)
    (hget : pyGet data ("Tempat/Tgl Lahir") = Option.some (PyVal.str s))
    (hs : s.data = a ++ (',') :: rest) (ha : (',') ∉ a) :
    split_birth data r =
      Option.some (dictSet (dictSet r ("tempat_lahir") (PyVal.str (String.mk (pyStrip a))))
        ("tanggal_lahir") (PyVal.str (String.mk (pyStrip ((pySplit (',') rest).headD []))))) := by
  have hne : s.data ≠ [] := by rw [hs]; simp
  have hie : s.isEmpty = false := data_ne_nil_isEmpty s hne
  have hps : pySplit (',') s.data = a :: pySplit (',') rest := by
    rw [hs]; exact pySplit_append (',') a rest ha
  obtain ⟨h0, t0, hrest⟩ := List.exists_cons_of_ne_nil (pySplit_ne_nil (',') rest)
  unfold split_birth
  rw [hget]
  simp [pyTruthy, hie, pySplitS, hps, hrest, pyStripS]

theorem split_place_keeps (r : PyDict)
    (hsafe : (∃ t, pyGetD r ("place_of_creation") = PyVal.str t) ∨
      pyTruthy (pyGetD r ("place_of_creation")) = false) :
    ∃ r2, split_place r = Except.ok r2 ∧
      ∀ k, k ≠ "place_of_creation" → k ≠ "date_of_creation" → pyGetD r2 k = pyGetD r k := by
  unfold split_place
  rcases hsafe with ⟨t, ht⟩ | hf
  · rw [ht]
    by_cases htr : pyTruthy (PyVal.str t) = true
    · simp only [htr, if_true]
      by_cases hlen : (pySplitS (' ') t).length > 1
      · simp only [hlen, if_true]
        refine ⟨_, rfl, ?_⟩
        intro k h1 h2
        rw [pyGetD_dictSet_ne _ _ _ _ h2, pyGetD_dictSet_ne _ _ _ _ h1]
      · simp only [hlen, if_false]
        refine ⟨_, rfl, ?_⟩
        intro k h1 h2
        rw [pyGetD_dictSet_ne _ _ _ _ h1]
    · rw [Bool.not_eq_true] at htr
      simp only [htr, if_false]
      exact ⟨r, rfl, fun _ _ _ => rfl⟩
  · simp only [hf, if_false]
    exact ⟨r, rfl, fun _ _ _ => rfl⟩

/-- A complete extraction output covering every field the AI model emits,
except the issuance field "Place and Date of Creation". -/
def dataComplete : PyDict :=
  [("NIK", PyVal.str ("1234567890123456")),
   ("Nama", PyVal.str ("Budi")),
   ("Tempat/Tgl Lahir", PyVal.str ("Jakarta, 01-01-1990")),
   ("Jenis Kelamin", PyVal.str ("LAKI-LAKI")),
   ("Gol. Darah", PyVal.str ("O")),
   ("Alamat", PyVal.str ("Jl. Merdeka 1")),
   ("RT/RW", PyVal.str ("001/002")),
   ("Kel/Desa", PyVal.str ("Gambir")),
   ("Kecamatan", PyVal.str ("Gambir")),
   ("Agama", PyVal.str ("ISLAM")),
   ("Status Perkawinan", PyVal.str ("KAWIN")),
   ("Kewarganegaraan", PyVal.str ("WNI")),
   ("Berlaku Hingga", PyVal.str ("SEUMUR HIDUP"))]

/-- The record `insert_id_card_tool` maps `dataComplete` to: the issuance
place column is `None`, yet validation passes. -/
def recNoPlace : PyDict :=
  [("nik", PyVal.str ("1234567890123456")),
   ("nama", PyVal.str ("Budi")),
   ("jenis_kelamin", PyVal.str ("LAKI-LAKI")),
   ("gol_darah", PyVal.str ("O")),
   ("alamat", PyVal.str ("Jl. Merdeka 1")),
   ("rt_rw", PyVal.str ("001/002")),
   ("kel_desa", PyVal.str ("Gambir")),
   ("kecamatan", PyVal.str ("Gambir")),
   ("agama", PyVal.str ("ISLAM")),
   ("status_perkawinan", PyVal.str ("KAWIN")),
   ("kewarganegaraan", PyVal.str ("WNI")),
   ("berlaku_hingga", PyVal.str ("SEUMUR HIDUP")),
   ("place_of_creation", PyVal.none),
   ("tempat_lahir", PyVal.str ("Jakarta")),
   ("tanggal_lahir", PyVal.str ("01-01-1990"))]

/-- `dataComplete` extended with a splittable issuance field, so that
every binding parameter of the INSERT statement gets a key. -/
def dataFull : PyDict :=
  dataComplete ++ [("Place and Date of Creation", PyVal.str ("JAKARTA 01-01-2010"))]

/-- The record `insert_id_card_tool` maps `dataFull` to: all sixteen
binding parameters present. -/
def recFull : PyDict :=
  [("nik", PyVal.str ("1234567890123456")),
   ("nama", PyVal.str ("Budi")),
   ("jenis_kelamin", PyVal.str ("LAKI-LAKI")),
   ("gol_darah", PyVal.str ("O")),
   ("alamat", PyVal.str ("Jl. Merdeka 1")),
   ("rt_rw", PyVal.str ("001/002")),
   ("kel_desa", PyVal.str ("Gambir")),
   ("kecamatan", PyVal.str ("Gambir")),
   ("agama", PyVal.str ("ISLAM")),
   ("status_perkawinan", PyVal.str ("KAWIN")),
   ("kewarganegaraan", PyVal.str ("WNI")),
   ("berlaku_hingga", PyVal.str ("SEUMUR HIDUP")),
   ("place_of_creation", PyVal.str ("JAKARTA")),
   ("tempat_lahir", PyVal.str ("Jakarta")),
   ("tanggal_lahir", PyVal.str ("01-01-1990")),
   ("date_of_creation", PyVal.str ("01-01-2010"))]

/-- C4 counterexample: the validation gate does not require the issuance
columns.  With every field except "Place and Date of Creation" supplied,
the issuance-place column is empty yet the gate reports nothing missing
and no rejection naming the missing issuance columns is produced: the
mapper proceeds past the gate, and what stops the row is only the
driver's binding check on the absent `date_of_creation` key, surfaced as
a generic error status — not the claimed rejection. -/
theorem required_gate_excludes_issuance_cex :
    mapped_record dataComplete = MapResult.ok recNoPlace ∧
    pyTruthy (pyGetD recNoPlace ("place_of_creation")) = false ∧
    missing_keys recNoPlace = [] ∧
    insert_id_card_tool DbOutcome.ok dataComplete =
      Except.ok (bindingErrResult ("date_of_creation")) ∧
    insert_id_card_tool DbOutcome.ok dataComplete ≠
      Except.ok (rejectResult (["place_of_creation", "date_of_creation"])) :=
  ⟨rfl, rfl, rfl, rfl, by decide⟩

/-- C4 as amended: the validation gate is all-or-nothing over the source's
fixed 13-column required set (identity number, name, birthplace, birth
date, sex, address, RT/RW, sub-district, district, religion, marital
status, citizenship, validity date — excluding blood type and, contrary
to the claim, also excluding issuance place and issuance date): the
missing list names exactly the required columns that are empty, and a
non-empty missing list yields the rejection result for every database
outcome, before any database access.  When the gate passes, the insert is
attempted: with all sixteen binding parameters present it commits, and
with one absent (only `date_of_creation` can be) it fails at the driver's
binding check with a generic error status for every database outcome —
never a mapper rejection. -/
theorem insert_gate_all_or_nothing (db : DbOutcome) (data r : PyDict)
    (hmr : mapped_record data = MapResult.ok r) :
    (∀ k, k ∈ missing_keys r ↔ k ∈ required_db_keys ∧ pyTruthy (pyGetD r k) = false) ∧
    (missing_keys r ≠ [] →
       insert_id_card_tool db data = Except.ok (rejectResult (missing_keys r))) ∧
    (missing_keys r = [] → missing_binding r = Option.none →
       insert_id_card_tool DbOutcome.ok data =
         Except.ok (PyVal.dict
           [("status", PyVal.str ("success")),
            ("message", PyVal.str ("Record for NIK " ++ pyStr (pyGetD r ("nik")) ++
              " added successfully."))])) ∧
    (missing_keys r = [] → ∀ k, missing_binding r = Option.some k →
       insert_id_card_tool db data = Except.ok (bindingErrResult k)) := by
  refine ⟨?_, ?_, ?_, ?_⟩
  · intro k
    simp [missing_keys, List.mem_filter]
  · intro h
    simp [insert_id_card_tool, insert_stage, hmr, h]
  · intro h hb
    simp [insert_id_card_tool, insert_stage, hmr, h, hb]
  · intro h k hb
    simp [insert_id_card_tool, insert_stage, hmr, h, hb]

/-- `dataComplete` with the name field removed. -/
def dataNoNama : PyDict := dataComplete.filter (fun kv => kv.1 ≠ "Nama")

/-- The record `insert_id_card_tool` maps `dataNoNama` to. -/
def recNoNama : PyDict :=
  [("nik", PyVal.str ("1234567890123456")),
   ("nama", PyVal.none),
   ("jenis_kelamin", PyVal.str ("LAKI-LAKI")),
   ("gol_darah", PyVal.str ("O")),
   ("alamat", PyVal.str ("Jl. Merdeka 1")),
   ("rt_rw", PyVal.str ("001/002")),
   ("kel_desa", PyVal.str ("Gambir")),
   ("kecamatan", PyVal.str ("Gambir")),
   ("agama", PyVal.str ("ISLAM")),
   ("status_perkawinan", PyVal.str ("KAWIN")),
   ("kewarganegaraan", PyVal.str ("WNI")),
   ("berlaku_hingga", PyVal.str ("SEUMUR HIDUP")),
   ("place_of_creation", PyVal.none),
   ("tempat_lahir", PyVal.str ("Jakarta")),
   ("tanggal_lahir", PyVal.str ("01-01-1990"))]

/-- Closed instantiation of `insert_gate_all_or_nothing`: dropping the name
field from an otherwise-valid input flips the result to a rejection
naming exactly that column independent of the database outcome, a fully
bindable input commits, and an input without the issuance field passes
the gate but dies at the binding check. -/
theorem insert_gate_all_or_nothing_witness :
    missing_keys recNoNama = ["nama"] ∧
    insert_id_card_tool DbOutcome.integrityError dataNoNama =
      Except.ok (rejectResult (["nama"])) ∧
    insert_id_card_tool DbOutcome.ok dataFull =
      Except.ok (PyVal.dict
        [("status", PyVal.str ("success")),
         ("message", PyVal.str ("Record for NIK 1234567890123456 added successfully."))]) ∧
    insert_id_card_tool (DbOutcome.sqliteError ("locked")) dataComplete =
      Except.ok (bindingErrResult ("date_of_creation")) := by
  refine ⟨rfl, ?_, ?_, ?_⟩
  · have h := (insert_gate_all_or_nothing DbOutcome.integrityError dataNoNama recNoNama rfl).2.1
      (by decide)
    simpa using h
  · have h := (insert_gate_all_or_nothing DbOutcome.ok dataFull recFull rfl).2.2.1 rfl rfl
    simpa using h
  · have h := (insert_gate_all_or_nothing (DbOutcome.sqliteError ("locked")) dataComplete
      recNoPlace rfl).2.2.2 rfl ("date_of_creation") rfl
    simpa using h

/-- C5 counterexample: on `"Jakarta, 01-01-1990, extra"` the birth-date
column receives only the segment between the first and the second comma
(`"01-01-1990"`), not the entire remainder after the first comma
(`"01-01-1990, extra"`) as the claim states. -/
theorem birth_split_second_segment_cex :
    split_birth [("Tempat/Tgl Lahir", PyVal.str ("Jakarta, 01-01-1990, extra"))] [] =
      Option.some [("tempat_lahir", PyVal.str ("Jakarta")),
                   ("tanggal_lahir", PyVal.str ("01-01-1990"))] ∧
    PyVal.str ("01-01-1990") ≠ PyVal.str ("01-01-1990, extra") :=
  ⟨rfl, by decide⟩

/-- C5 as amended: the mapper splits the non-empty combined birth field at
every comma and keeps the first two segments: the birthplace column gets
the (trimmed) text before the first comma; the birth-date column gets the
(trimmed) segment between the first and second comma — the entire
remainder only when there is no second comma, anything past a second
comma being dropped; with no comma at all the birthplace column gets the
whole (trimmed) string and the birth-date column is null rather than the
split failing. -/
theorem birth_split_comma_behavior (data r : PyDict) (s : String)
    (hget : pyGet data ("Tempat/Tgl Lahir") = Option.some (PyVal.str s))
    (hne : s.data ≠ []) :
    (((',') ∉ s.data →
        split_birth data r =
          Option.some (dictSet (dictSet r ("tempat_lahir") (PyVal.str (pyStripS s)))
            ("tanggal_lahir") PyVal.none)) ∧
     (∀ a b : List Char, s.data = a ++ (',') :: b → (',') ∉ a → (',') ∉ b →
        split_birth data r =
          Option.some (dictSet (dictSet r ("tempat_lahir") (PyVal.str (String.mk (pyStrip a))))
            ("tanggal_lahir") (PyVal.str (String.mk (pyStrip b))))) ∧
     (∀ a b c : List Char, s.data = a ++ (',') :: (b ++ (',') :: c) → (',') ∉ a → (',') ∉ b →
        split_birth data r =
          Option.some (dictSet (dictSet r ("tempat_lahir") (PyVal.str (String.mk (pyStrip a))))
            ("tanggal_lahir") (PyVal.str (String.mk (pyStrip b)))))) := by
  refine ⟨fun hc => split_birth_no_comma data r s hget hne hc, ?_, ?_⟩
  · intro a b hs ha hb
    have h := split_birth_segments data r s a b hget hs ha
    rw [pySplit_no_sep (',') b hb] at h
    simpa using h
  · intro a b c hs ha hb
    have h := split_birth_segments data r s a (b ++ (',') :: c) hget hs ha
    rw [pySplit_append (',') b c hb] at h
    simpa using h

/-- Closed instantiation of `birth_split_comma_behavior` at the spec's own
example `"Jakarta, 01-01-1990"`. -/
theorem birth_split_comma_behavior_witness :
    split_birth [("Tempat/Tgl Lahir", PyVal.str ("Jakarta, 01-01-1990"))] [] =
      Option.some [("tempat_lahir", PyVal.str ("Jakarta")),
                   ("tanggal_lahir", PyVal.str ("01-01-1990"))] := by
  have h := ((birth_split_comma_behavior
      [("Tempat/Tgl Lahir", PyVal.str ("Jakarta, 01-01-1990"))] []
      ("Jakarta, 01-01-1990") rfl (by decide)).2.1)
    (("Jakarta").data) ((" 01-01-1990").data) (by decide) (by decide) (by decide)
  simpa using h

/-- C10: a combined birth field without a comma leaves a null birth date,
which fails the required-field gate: for any input whose issuance field is
a string or empty (so the uncaught issuance-split path is not taken), the
tool returns the rejection — whose missing list contains the birth-date
column — for every database outcome, so no insert is ever performed. -/
theorem no_comma_birth_rejected (db : DbOutcome) (data : PyDict) (s : String)
    (hget : pyGet data ("Tempat/Tgl Lahir") = Option.some (PyVal.str s))
    (hne : s.data ≠ []) (hc : (',') ∉ s.data)
    (hsafe : (∃ t, pyGet data ("Place and Date of Creation") = Option.some (PyVal.str t)) ∨
      pyTruthy (pyGetD data ("Place and Date of Creation")) = false) :
    ∃ missing, insert_stage data = Except.ok (InsertOutcome.reject missing) ∧
      ("tanggal_lahir") ∈ missing ∧
      insert_id_card_tool db data = Except.ok (rejectResult missing) := by
  have hsb : split_birth data (rename_record data) =
      Option.some (dictSet (dictSet (rename_record data) ("tempat_lahir")
        (PyVal.str (pyStripS s))) ("tanggal_lahir") PyVal.none) :=
    split_birth_no_comma data (rename_record data) s hget hne hc
  have hplace : pyGetD (dictSet (dictSet (rename_record data) ("tempat_lahir")
      (PyVal.str (pyStripS s))) ("tanggal_lahir") PyVal.none) ("place_of_creation") =
      pyGetD data ("Place and Date of Creation") := by
    rw [pyGetD_dictSet_ne _ _ _ _ (by decide), pyGetD_dictSet_ne _ _ _ _ (by decide)]
    rfl
  have hsafe2 : (∃ t, pyGetD (dictSet (dictSet (rename_record data) ("tempat_lahir")
      (PyVal.str (pyStripS s))) ("tanggal_lahir") PyVal.none) ("place_of_creation") = PyVal.str t) ∨
      pyTruthy (pyGetD (dictSet (dictSet (rename_record data) ("tempat_lahir")
        (PyVal.str (pyStripS s))) ("tanggal_lahir") PyVal.none) ("place_of_creation")) = false := by
    rw [hplace]
    rcases hsafe with ⟨t, ht⟩ | hf
    · exact Or.inl ⟨t, by simp [pyGetD, ht]⟩
    · exact Or.inr hf
  obtain ⟨r2, hsp, hkeep⟩ := split_place_keeps _ hsafe2
  have hmr : mapped_record data = MapResult.ok r2 := by
    simp only [mapped_record, hsb, hsp]
  have htg : pyGetD r2 ("tanggal_lahir") = PyVal.none := by
    rw [hkeep _ (by decide) (by decide), pyGetD_dictSet_self]
  have hmem : ("tanggal_lahir") ∈ missing_keys r2 := by
    simp [missing_keys, List.mem_filter, htg, pyTruthy]
    decide
  have hmne : missing_keys r2 ≠ [] := List.ne_nil_of_mem hmem
  refine ⟨missing_keys r2, ?_, hmem, ?_⟩
  · simp [insert_stage, hmr, hmne]
  · simp [insert_id_card_tool, insert_stage, hmr, hmne]

/- ------------------------------------------------------------------
   Dispatch-layer lemmas (used by C3, C6, C7, C8, C9)
   ------------------------------------------------------------------ -/

theorem dispatch_call_analyze (env : Env) (acc : DispatchOut) (c : ToolCall)
    (h1 : c.name = "analyze_id_card_tool") :
    dispatch_call env acc c = Except.ok
      { outputs := acc.outputs ++ [Msg.tool (pyStr (env.analyze c.args)) c.id],
        analysis := Option.some (env.analyze c.args),
        invoked := acc.invoked ++ [(c.name, c.args)] } := by
  simp [dispatch_call, invoke_tool, h1]

theorem dispatch_call_checkDup (env : Env) (acc : DispatchOut) (c : ToolCall)
    (h1 : c.name = "check_duplicate_nik_tool") :
    dispatch_call env acc c = Except.ok
      { outputs := acc.outputs ++ [Msg.tool (pyStr (env.checkDup c.args)) c.id],
        analysis := acc.analysis,
        invoked := acc.invoked ++ [(c.name, c.args)] } := by
  simp [dispatch_call, invoke_tool, h1]

theorem dispatch_call_notify (env : Env) (acc : DispatchOut) (c : ToolCall)
    (h1 : c.name = "notify_fraud_tool") :
    dispatch_call env acc c = Except.ok
      { outputs := acc.outputs ++ [Msg.tool (pyStr (env.notify c.args)) c.id],
        analysis := acc.analysis,
        invoked := acc.invoked ++ [(c.name, c.args)] } := by
  simp [dispatch_call, invoke_tool, h1]

theorem dispatch_call_insert_dict (env : Env) (acc : DispatchOut) (c : ToolCall)
    (d : PyDict) (out : PyVal)
    (h1 : c.name = "insert_id_card_tool")
    (hd : pyGet c.args ("data") = Option.some (PyVal.dict d))
    (hout : insert_id_card_tool env.db d = Except.ok out) :
    dispatch_call env acc c = Except.ok
      { outputs := acc.outputs ++ [Msg.tool (pyStr out) c.id],
        analysis := acc.analysis,
        invoked := acc.invoked ++ [(c.name, c.args)] } := by
  simp [dispatch_call, invoke_tool, h1, hd, hout]

theorem dispatch_call_insert_repair (env : Env) (acc : DispatchOut) (c : ToolCall)
    (s : String) (d : PyDict) (out : PyVal)
    (h1 : c.name = "insert_id_card_tool")
    (hd : pyGet c.args ("data") = Option.some (PyVal.str s))
    (hv : env.literal_eval s = Option.some (PyVal.dict d))
    (hout : insert_id_card_tool env.db d = Except.ok out) :
    dispatch_call env acc c = Except.ok
      { outputs := acc.outputs ++ [Msg.tool (pyStr out) c.id],
        analysis := acc.analysis,
        invoked := acc.invoked ++ [(c.name, dictSet c.args ("data") (PyVal.dict d))] } := by
  simp [dispatch_call, invoke_tool, h1, hd, hv, pyGet_dictSet_self, hout]

theorem dispatch_call_insert_malformed (env : Env) (acc : DispatchOut) (c : ToolCall)
    (s : String)
    (h1 : c.name = "insert_id_card_tool")
    (hd : pyGet c.args ("data") = Option.some (PyVal.str s))
    (hv : env.literal_eval s = Option.none) :
    dispatch_call env acc c = Except.ok
      { outputs := acc.outputs ++ [malformedArgMsg c.id],
        analysis := acc.analysis,
        invoked := acc.invoked } := by
  simp [dispatch_call, h1, hd, hv]

theorem invoke_tool_ok_shape (env : Env) (acc : DispatchOut) (name : String) (args : PyDict)
    (callId : String) (acc2 : DispatchOut)
    (h : invoke_tool env acc name args callId = Except.ok acc2) :
    (∃ m, acc2.outputs = acc.outputs ++ [Msg.tool m callId]) ∧
    acc2.invoked = acc.invoked ++ [(name, args)] ∧
    ((name = "analyze_id_card_tool" ∧ acc2.analysis = Option.some (env.analyze args)) ∨
     (name ≠ "analyze_id_card_tool" ∧ acc2.analysis = acc.analysis)) := by
  unfold invoke_tool at h
  split_ifs at h with h1 h2 h3 h4
  · injection h with h
    subst h
    exact ⟨⟨_, rfl⟩, rfl, Or.inl ⟨h1, rfl⟩⟩
  · injection h with h
    subst h
    exact ⟨⟨_, rfl⟩, rfl, Or.inr ⟨h1, rfl⟩⟩
  · cases hg : pyGet args ("data") with
    | none =>
        simp only [hg] at h
        exact Except.noConfusion h
    | some v =>
        cases v with
        | dict dd =>
            simp only [hg] at h
            cases hout : insert_id_card_tool env.db dd with
            | error e =>
                simp only [hout] at h
                exact Except.noConfusion h
            | ok out =>
                simp only [hout] at h
                injection h with h
                subst h
                exact ⟨⟨_, rfl⟩, rfl, Or.inr ⟨h1, rfl⟩⟩
        | none =>
            simp only [hg] at h
            exact Except.noConfusion h
        | str s =>
            simp only [hg] at h
            exact Except.noConfusion h
  · injection h with h
    subst h
    exact ⟨⟨_, rfl⟩, rfl, Or.inr ⟨h1, rfl⟩⟩

theorem dispatch_call_ok_shape (env : Env) (acc : DispatchOut) (c : ToolCall)
    (acc2 : DispatchOut) (h : dispatch_call env acc c = Except.ok acc2) :
    (∃ m, acc2.outputs = acc.outputs ++ [Msg.tool m c.id]) ∧
    ((acc2.invoked = acc.invoked ∧ acc2.analysis = acc.analysis) ∨
     (∃ args2, acc2.invoked = acc.invoked ++ [(c.name, args2)] ∧
       ((c.name = "analyze_id_card_tool" ∧ acc2.analysis = Option.some (env.analyze args2)) ∨
        (c.name ≠ "analyze_id_card_tool" ∧ acc2.analysis = acc.analysis)))) := by
  unfold dispatch_call at h
  by_cases hn : c.name = "insert_id_card_tool"
  · simp only [hn, if_true] at h ⊢
    cases hg : pyGet c.args ("data") with
    | none =>
        simp only [hg] at h
        obtain ⟨hm, hi, hcase⟩ := invoke_tool_ok_shape env acc _ c.args c.id acc2 h
        exact ⟨hm, Or.inr ⟨c.args, hi, hcase⟩⟩
    | some v =>
        cases v with
        | str s =>
            simp only [hg] at h
            cases hv : env.literal_eval s with
            | none =>
                simp only [hv] at h
                injection h with h
                subst h
                exact ⟨⟨_, rfl⟩, Or.inl ⟨rfl, rfl⟩⟩
            | some v2 =>
                simp only [hv] at h
                obtain ⟨hm, hi, hcase⟩ := invoke_tool_ok_shape env acc _ _ c.id acc2 h
                exact ⟨hm, Or.inr ⟨_, hi, hcase⟩⟩
        | none =>
            simp only [hg] at h
            obtain ⟨hm, hi, hcase⟩ := invoke_tool_ok_shape env acc _ c.args c.id acc2 h
            exact ⟨hm, Or.inr ⟨c.args, hi, hcase⟩⟩
        | dict dd =>
            simp only [hg] at h
            obtain ⟨hm, hi, hcase⟩ := invoke_tool_ok_shape env acc _ c.args c.id acc2 h
            exact ⟨hm, Or.inr ⟨c.args, hi, hcase⟩⟩
  · simp only [hn, if_false] at h
    obtain ⟨hm, hi, hcase⟩ := invoke_tool_ok_shape env acc _ c.args c.id acc2 h
    exact ⟨hm, Or.inr ⟨c.args, hi, hcase⟩⟩

theorem dispatch_calls_shape (env : Env) :
    ∀ (calls : List ToolCall) (acc d : DispatchOut),
      dispatch_calls env acc calls = Except.ok d →
      (∀ x ∈ acc.invoked, x ∈ d.invoked) ∧
      ((d.analysis = acc.analysis ∧
         ∀ args, ("analyze_id_card_tool", args) ∈ d.invoked →
           ("analyze_id_card_tool", args) ∈ acc.invoked) ∨
       (∃ args, ("analyze_id_card_tool", args) ∈ d.invoked ∧
         d.analysis = Option.some (env.analyze args))) := by
  intro calls
  induction calls with
  | nil =>
      intro acc d h
      injection h with h
      subst h
      exact ⟨fun _ m => m, Or.inl ⟨rfl, fun _ m => m⟩⟩
  | cons c cs ih =>
      intro acc d h
      unfold dispatch_calls at h
      cases hdc : dispatch_call env acc c with
      | error e =>
          rw [hdc] at h
          exact Except.noConfusion h
      | ok acc2 =>
          rw [hdc] at h
          obtain ⟨hmono2, hinv2⟩ := ih acc2 d h
          obtain ⟨hm, hshape⟩ := dispatch_call_ok_shape env acc c acc2 hdc
          have hmono1 : ∀ x ∈ acc.invoked, x ∈ acc2.invoked := by
            rcases hshape with ⟨hi, _⟩ | ⟨args2, hi, _⟩
            · rw [hi]; exact fun _ m => m
            · rw [hi]; intro x m; exact List.mem_append_left _ m
          refine ⟨fun x m => hmono2 x (hmono1 x m), ?_⟩
          rcases hinv2 with ⟨heq2, hback2⟩ | ⟨args, hmem, heq⟩
          · rcases hshape with ⟨hi, ha⟩ | ⟨args2, hi, hcase⟩
            · exact Or.inl ⟨heq2.trans ha, fun args m => hi ▸ hback2 args m⟩
            · rcases hcase with ⟨hname, ha⟩ | ⟨hname, ha⟩
              · refine Or.inr ⟨args2, ?_, heq2.trans ha⟩
                exact hmono2 _ (by rw [hi, hname]; exact List.mem_append_right _ (by simp))
              · refine Or.inl ⟨heq2.trans ha, ?_⟩
                intro args m
                have m2 := hback2 args m
                rw [hi] at m2
                rcases List.mem_append.mp m2 with m3 | m3
                · exact m3
                · exfalso
                  simp only [List.mem_singleton] at m3
                  exact hname (congrArg Prod.fst m3).symm
          · exact Or.inr ⟨args, hmem, heq⟩

theorem tool_node_analysis (env : Env) (st : AgentState) (d : DispatchOut)
    (h : tool_node env st = Except.ok d) :
    ((∃ args, ("analyze_id_card_tool", args) ∈ d.invoked) →
       ∃ args, ("analyze_id_card_tool", args) ∈ d.invoked ∧
         d.analysis = Option.some (env.analyze args)) ∧
    ((∀ args, ("analyze_id_card_tool", args) ∉ d.invoked) →
       d.analysis = st.analysis_result) := by
  obtain ⟨hmono, hinv⟩ := dispatch_calls_shape env _ _ _ h
  constructor
  · intro ⟨args, hmem⟩
    rcases hinv with ⟨heq, hback⟩ | ⟨args2, hmem2, heq2⟩
    · exact absurd (hback args hmem) (by simp)
    · exact ⟨args2, hmem2, heq2⟩
  · intro hnone
    rcases hinv with ⟨heq, hback⟩ | ⟨args2, hmem2, heq2⟩
    · exact heq
    · exact absurd hmem2 (hnone args2)

theorem tools_step_analysis (env : Env) (st st2 : AgentState) (blog : List (String × PyDict))
    (h : tools_step env st = Except.ok (st2, blog)) :
    (st2.analysis_result.isSome = true ↔
      (st.analysis_result.isSome = true ∨ ∃ args, ("analyze_id_card_tool", args) ∈ blog)) := by
  unfold tools_step at h
  cases htn : tool_node env st with
  | error e =>
      rw [htn] at h
      exact Except.noConfusion h
  | ok d =>
      rw [htn] at h
      injection h with h
      have h1 : st2 = { messages := st.messages ++ d.outputs, analysis_result := d.analysis } :=
        (congrArg Prod.fst h).symm
      have h2 : blog = d.invoked := (congrArg Prod.snd h).symm
      subst h1
      subst h2
      unfold tool_node at htn
      obtain ⟨hmono, hinv⟩ := dispatch_calls_shape env _ _ _ htn
      rcases hinv with ⟨heq, hback⟩ | ⟨args, hmem, heq⟩
      · simp only [heq]
        constructor
        · intro hs
          exact Or.inl hs
        · rintro (hs | ⟨args, hm⟩)
          · exact hs
          · exact absurd (hback args hm) (by simp)
      · simp only [heq, Option.isSome_some, true_iff]
        exact Or.inr ⟨args, hmem⟩

theorem run_graph_analysis_inv (env : Env) :
    ∀ (fuel : Nat) (node : Node) (st : AgentState) (log : List (String × PyDict))
      (events : List Msg) (steps : Nat) (r : RunResult),
      (st.analysis_result.isSome = true ↔ ∃ args, ("analyze_id_card_tool", args) ∈ log) →
      run_graph env fuel node st log events steps = Except.ok r →
      (r.state.analysis_result.isSome = true ↔
        ∃ args, ("analyze_id_card_tool", args) ∈ r.invoked) := by
  intro fuel
  induction fuel with
  | zero =>
      intro node st log events steps r hinv h
      unfold run_graph at h
      cases node with
      | endNode =>
          injection h with h
          subst h
          exact hinv
      | agent =>
          injection h with h
          subst h
          exact hinv
      | tools =>
          injection h with h
          subst h
          exact hinv
  | succ fuel ih =>
      intro node st log events steps r hinv h
      unfold run_graph at h
      cases node with
      | endNode =>
          injection h with h
          subst h
          exact hinv
      | agent =>
          exact ih _ _ _ _ _ r (by simpa [agent_node] using hinv) h
      | tools =>
          cases hts : tools_step env st with
          | error e =>
              rw [hts] at h
              exact Except.noConfusion h
          | ok p =>
              obtain ⟨st2, blog⟩ := p
              rw [hts] at h
              have hiff := tools_step_analysis env st st2 blog hts
              refine ih _ _ _ _ _ r ?_ h
              rw [hiff, hinv]
              constructor
              · rintro (⟨args, hm⟩ | ⟨args, hm⟩)
                · exact ⟨args, List.mem_append_left _ hm⟩
                · exact ⟨args, List.mem_append_right _ hm⟩
              · rintro ⟨args, hm⟩
                rcases List.mem_append.mp hm with hm2 | hm2
                · exact Or.inl ⟨args, hm2⟩
                · exact Or.inr ⟨args, hm2⟩

/-- C3: the analysis verdict is captured exactly by extraction dispatches:
whenever a dispatch batch invoked the analysis capability, the state
afterwards holds the verdict returned by one of those invocations;
a batch with no analysis invocation leaves the captured verdict
untouched; and along any run of the compiled graph from a fresh state,
the verdict is set if and only if some analysis invocation has been
dispatched since the state was created. -/
theorem analysis_capture (env : Env) :
    (∀ st d, tool_node env st = Except.ok d →
       (((∃ args, ("analyze_id_card_tool", args) ∈ d.invoked) →
           ∃ args, ("analyze_id_card_tool", args) ∈ d.invoked ∧
             d.analysis = Option.some (env.analyze args)) ∧
        ((∀ args, ("analyze_id_card_tool", args) ∉ d.invoked) →
           d.analysis = st.analysis_result))) ∧
    (∀ fuel init r, init.analysis_result = Option.none →
       run_graph env fuel Node.agent init [] [] 0 = Except.ok r →
       (r.state.analysis_result.isSome = true ↔
         ∃ args, ("analyze_id_card_tool", args) ∈ r.invoked)) := by
  refine ⟨fun st d h => tool_node_analysis env st d h, ?_⟩
  intro fuel init r hinit h
  exact run_graph_analysis_inv env fuel Node.agent init [] [] 0 r (by simp [hinit]) h

/-- A concrete environment used by the closed instantiations: stubbed
capabilities with fixed results, a committing database, a failing
`literal_eval`, and a reasoner that answers without tool calls. -/
def stubEnv : Env :=
  { analyze := fun _ => PyVal.dict [("status", PyVal.str ("success"))],
    checkDup := fun _ => PyVal.dict [("status", PyVal.str ("not_found"))],
    notify := fun _ => PyVal.dict [("status", PyVal.str ("success"))],
    db := DbOutcome.ok,
    literal_eval := fun _ => Option.none,
    reasoner := fun _ => ("done", []) }

/-- A state whose last message calls the analysis tool. -/
def stA : AgentState :=
  ⟨[Msg.ai ("") [⟨("analyze_id_card_tool"), [(("image_path"), PyVal.str ("f.png"))], ("c1")⟩]],
   Option.none⟩

/-- What `tool_node stubEnv stA` dispatches to. -/
def dA : DispatchOut :=
  ⟨[Msg.tool ("\x7b'status': 'success'\x7d") ("c1")],
   Option.some (PyVal.dict [("status", PyVal.str ("success"))]),
   [(("analyze_id_card_tool"), [(("image_path"), PyVal.str ("f.png"))])]⟩

/-- Closed instantiation of `analysis_capture`: a dispatched analysis call
leaves its verdict in the state, and a fresh zero-step run has no verdict
and no analysis invocation. -/
theorem analysis_capture_witness :
    (∃ args, (("analyze_id_card_tool"), args) ∈ dA.invoked ∧
       dA.analysis = Option.some (stubEnv.analyze args)) ∧
    (({ state := ⟨[Msg.human ("x")], Option.none⟩, invoked := [], agentEvents := [],
        completed := false, steps := 0 } : RunResult).state.analysis_result.isSome = true ↔
      ∃ args, (("analyze_id_card_tool"), args) ∈
        ({ state := ⟨[Msg.human ("x")], Option.none⟩, invoked := [], agentEvents := [],
           completed := false, steps := 0 } : RunResult).invoked) :=
  ⟨((analysis_capture stubEnv).1 stA dA rfl).1
     ⟨[(("image_path"), PyVal.str ("f.png"))], by simp [dA]⟩,
   (analysis_capture stubEnv).2 0 ⟨[Msg.human ("x")], Option.none⟩ _ rfl rfl⟩

/-- C6: a persistence call whose `data` argument is a string is parsed
back into structured form before the capability is invoked; when the
parse fails, the dispatch layer neither raises nor invokes the
capability, but appends a malformed-argument tool result correlated to
the call id and continues with the remaining calls of the batch. -/
theorem insert_string_arg_repair (env : Env) (acc : DispatchOut) (call : ToolCall)
    (rest : List ToolCall) (s : String)
    (hname : call.name = "insert_id_card_tool")
    (hdata : pyGet call.args ("data") = Option.some (PyVal.str s)) :
    (∀ v, env.literal_eval s = Option.some v →
       dispatch_call env acc call =
         invoke_tool env acc call.name (dictSet call.args ("data") v) call.id) ∧
    (env.literal_eval s = Option.none →
       dispatch_calls env acc (call :: rest) =
         dispatch_calls env
           { outputs := acc.outputs ++ [malformedArgMsg call.id],
             analysis := acc.analysis, invoked := acc.invoked } rest) := by
  constructor
  · intro v hv
    simp [dispatch_call, hname, hdata, hv]
  · intro hv
    conv =>
      lhs
      rw [dispatch_calls]
    simp [dispatch_call, hname, hdata, hv]

/-- A persistence call whose `data` payload is an unparsable string. -/
def cBad : ToolCall := ⟨("insert_id_card_tool"), [(("data"), PyVal.str ("\x7bbad"))], ("c9")⟩

/-- A well-formed notification call following `cBad` in the batch. -/
def cNotify : ToolCall := ⟨("notify_fraud_tool"), [], ("c10")⟩

/-- The empty dispatch accumulator. -/
def acc0 : DispatchOut := ⟨[], Option.none, []⟩

/-- Closed instantiation of `insert_string_arg_repair`: the unparsable
`data` string yields the malformed-argument result for its call id and
the following notification call still executes. -/
theorem insert_string_arg_repair_witness :
    dispatch_calls stubEnv acc0 [cBad, cNotify] =
      dispatch_calls stubEnv
        { outputs := [malformedArgMsg ("c9")], analysis := Option.none, invoked := [] }
        [cNotify] ∧
    dispatch_calls stubEnv acc0 [cBad, cNotify] =
      Except.ok ⟨[malformedArgMsg ("c9"),
                  Msg.tool ("\x7b'status': 'success'\x7d") ("c10")],
                 Option.none, [(("notify_fraud_tool"), [])]⟩ :=
  ⟨by
     have h := (insert_string_arg_repair stubEnv acc0 cBad [cNotify] ("\x7bbad") rfl rfl).2 rfl
     simpa [acc0] using h,
   rfl⟩

/-- Closed instantiation of `no_comma_birth_rejected` at an
otherwise-complete input whose birth field is just `"Jakarta"`. -/
theorem no_comma_birth_rejected_witness :
    (∃ missing, insert_stage (dictSet dataComplete ("Tempat/Tgl Lahir") (PyVal.str ("Jakarta"))) =
        Except.ok (InsertOutcome.reject missing) ∧
      ("tanggal_lahir") ∈ missing ∧
      insert_id_card_tool DbOutcome.ok
          (dictSet dataComplete ("Tempat/Tgl Lahir") (PyVal.str ("Jakarta"))) =
        Except.ok (rejectResult missing)) ∧
    insert_id_card_tool DbOutcome.ok
        (dictSet dataComplete ("Tempat/Tgl Lahir") (PyVal.str ("Jakarta"))) =
      Except.ok (rejectResult (["tanggal_lahir"])) :=
  ⟨no_comma_birth_rejected DbOutcome.ok _ ("Jakarta") (by decide) (by decide) (by decide)
    (Or.inr (by decide)),
   rfl⟩


/-- The Python-dict value of the `data` argument after the dispatch layer's
string repair, if any. -/
def repaired_data (env : Env) (c : ToolCall) : Option PyVal :=
  match pyGet c.args ("data") with
  | Option.some (PyVal.str s) => env.literal_eval s
  | other => other

/-- The conditions under which dispatching one call hits none of the
configuration-fatal or schema-level faults: its name resolves in the
registry, and a persistence call's `data` is either a malformed string
(handled by the repair path) or yields a dict on which the embedded
persistence tool returns normally (its enumerated failures are returned
as status dicts; only the unprotected issuance-split raises). -/
def call_safe (env : Env) (c : ToolCall) : Prop :=
  c.name ∈ tool_registry ∧
  (c.name = "insert_id_card_tool" →
    (∃ s, pyGet c.args ("data") = Option.some (PyVal.str s) ∧
       env.literal_eval s = Option.none) ∨
    (∃ d out, repaired_data env c = Option.some (PyVal.dict d) ∧
       insert_id_card_tool env.db d = Except.ok out))

/-- The correlation id carried by a history entry (empty for non-tool
messages). -/
def msgCallId : Msg → String
  | Msg.tool _ i => i
  | _ => ""

theorem dispatch_call_safe_ok (env : Env) (acc : DispatchOut) (c : ToolCall)
    (h : call_safe env c) :
    ∃ acc2, dispatch_call env acc c = Except.ok acc2 ∧
      ∃ m, acc2.outputs = acc.outputs ++ [Msg.tool m c.id] := by
  obtain ⟨hreg, hins⟩ := h
  simp only [tool_registry, List.mem_cons, List.not_mem_nil, or_false] at hreg
  rcases hreg with h1 | h1 | h1 | h1
  · exact ⟨_, dispatch_call_analyze env acc c h1, _, rfl⟩
  · exact ⟨_, dispatch_call_checkDup env acc c h1, _, rfl⟩
  · rcases hins h1 with ⟨s, hs, hn⟩ | ⟨d, out, hrep, hout⟩
    · exact ⟨_, dispatch_call_insert_malformed env acc c s h1 hs hn, _, rfl⟩
    · unfold repaired_data at hrep
      cases hg : pyGet c.args ("data") with
      | none =>
          rw [hg] at hrep
          exact Option.noConfusion hrep
      | some v =>
          cases v with
          | str s =>
              rw [hg] at hrep
              exact ⟨_, dispatch_call_insert_repair env acc c s d out h1 hg hrep hout, _, rfl⟩
          | dict d0 =>
              rw [hg] at hrep
              injection hrep with hrep
              have hd : d0 = d := by injection hrep
              subst hd
              exact ⟨_, dispatch_call_insert_dict env acc c d0 out h1 hg hout, _, rfl⟩
          | none =>
              rw [hg] at hrep
              injection hrep with hrep
              exact PyVal.noConfusion hrep
  · exact ⟨_, dispatch_call_notify env acc c h1, _, rfl⟩

theorem dispatch_calls_safe_ok (env : Env) :
    ∀ (calls : List ToolCall) (acc : DispatchOut),
      (∀ c ∈ calls, call_safe env c) →
      ∃ d, dispatch_calls env acc calls = Except.ok d ∧
        ∃ outs, d.outputs = acc.outputs ++ outs ∧
          outs.map msgCallId = calls.map ToolCall.id := by
  intro calls
  induction calls with
  | nil =>
      intro acc _
      exact ⟨acc, rfl, [], by simp, rfl⟩
  | cons c cs ih =>
      intro acc hsafe
      obtain ⟨acc2, hdc, m, hout⟩ := dispatch_call_safe_ok env acc c (hsafe c (by simp))
      obtain ⟨d, hd, outs, houts, hmap⟩ := ih acc2 (fun x hx => hsafe x (by simp [hx]))
      refine ⟨d, ?_, Msg.tool m c.id :: outs, ?_, ?_⟩
      · unfold dispatch_calls
        rw [hdc]
        exact hd
      · rw [houts, hout]
        simp
      · simp [msgCallId, hmap]

/-- C7 as amended: when every call of the batch resolves in the registry
and carries a schema-conformant payload that does not reach the
unprotected issuance split (see the counterexample for that one escape),
the dispatch layer returns normally whatever failures the capabilities
report — malformed strings, missing mapped fields, binding failures,
storage conflicts and the capability-caught internal errors all surface
as structured tool results, one per call, correlated to the calls' ids in
batch order, and no exception reaches the loop. -/
theorem dispatch_converts_failures (env : Env) (st : AgentState)
    (hsafe : ∀ c ∈ last_tool_calls st.messages, call_safe env c) :
    ∃ d, tool_node env st = Except.ok d ∧
      d.outputs.map msgCallId = (last_tool_calls st.messages).map ToolCall.id := by
  obtain ⟨d, hd, outs, houts, hmap⟩ := dispatch_calls_safe_ok env _ _ hsafe
  refine ⟨d, hd, ?_⟩
  rw [houts]
  simpa using hmap

theorem last_tool_calls_concat (msgs : List Msg) (m : Msg) :
    last_tool_calls (msgs ++ [m]) = msgToolCalls m := by
  unfold last_tool_calls
  rw [List.getLast?_concat]

theorem run_graph_agent_step (env : Env) (fuel : Nat) (st : AgentState)
    (log : List (String × PyDict)) (events : List Msg) (steps : Nat) :
    run_graph env (fuel + 1) Node.agent st log events steps =
      run_graph env fuel (graph_successor Node.agent (agent_node env st)) (agent_node env st)
        log (events ++ [Msg.ai (env.reasoner st.messages).1 (env.reasoner st.messages).2])
        (steps + 1) := rfl

theorem run_graph_tools_step_eq (env : Env) (fuel : Nat) (st : AgentState)
    (log : List (String × PyDict)) (events : List Msg) (steps : Nat)
    (st2 : AgentState) (blog : List (String × PyDict))
    (hts : tools_step env st = Except.ok (st2, blog)) :
    run_graph env (fuel + 1) Node.tools st log events steps =
      run_graph env fuel (graph_successor Node.tools st2) st2 (log ++ blog) events
        (steps + 1) := by
  conv =>
    lhs
    unfold run_graph
    rw [hts]

theorem run_exhausts (env : Env)
    (hcalls : ∀ msgs, (env.reasoner msgs).2 ≠ [])
    (hsafe : ∀ msgs c, c ∈ (env.reasoner msgs).2 → call_safe env c) :
    ∀ (fuel : Nat) (node : Node) (st : AgentState) (log : List (String × PyDict))
      (events : List Msg) (steps : Nat),
      (node = Node.agent ∨
        (node = Node.tools ∧ ∀ c ∈ last_tool_calls st.messages, call_safe env c)) →
      ∃ r, run_graph env fuel node st log events steps = Except.ok r ∧
        r.completed = false ∧ r.steps = steps + fuel ∧
        ∃ extra, r.agentEvents = events ++ extra ∧
          ∀ m ∈ extra, ∃ cnt tcs, m = Msg.ai cnt tcs ∧ tcs ≠ [] := by
  intro fuel
  induction fuel with
  | zero =>
      intro node st log events steps hnode
      rcases hnode with rfl | ⟨rfl, _⟩
      · exact ⟨_, rfl, rfl, rfl, [], by simp, by simp⟩
      · exact ⟨_, rfl, rfl, rfl, [], by simp, by simp⟩
  | succ fuel ih =>
      intro node st log events steps hnode
      rcases hnode with rfl | ⟨rfl, hsafecalls⟩
      · have hlast : last_tool_calls (agent_node env st).messages =
            (env.reasoner st.messages).2 := by
          unfold agent_node
          rw [last_tool_calls_concat]
          rfl
        have hsucc : graph_successor Node.agent (agent_node env st) = Node.tools := by
          show route_from_agent (agent_node env st) = Node.tools
          unfold route_from_agent
          rw [hlast, if_neg (hcalls st.messages)]
        obtain ⟨r, hr, hcomp, hsteps, extra, hev, hextra⟩ :=
          ih Node.tools (agent_node env st) log
            (events ++ [Msg.ai (env.reasoner st.messages).1 (env.reasoner st.messages).2])
            (steps + 1)
            (Or.inr ⟨rfl, by rw [hlast]; exact fun c hc => hsafe st.messages c hc⟩)
        refine ⟨r, ?_, hcomp, by omega,
          Msg.ai (env.reasoner st.messages).1 (env.reasoner st.messages).2 :: extra, ?_, ?_⟩
        · rw [run_graph_agent_step, hsucc]
          exact hr
        · rw [hev]
          simp
        · intro m hm
          rcases List.mem_cons.mp hm with hm1 | hm2
          · exact ⟨_, _, hm1, hcalls st.messages⟩
          · exact hextra m hm2
      · obtain ⟨d, hd, outs, houts, hmap⟩ := dispatch_calls_safe_ok env _ _ hsafecalls
        have hts : tools_step env st = Except.ok
            ({ messages := st.messages ++ d.outputs, analysis_result := d.analysis },
             d.invoked) := by
          unfold tools_step
          rw [show tool_node env st = Except.ok d from hd]
        obtain ⟨r, hr, hcomp, hsteps, extra, hev, hextra⟩ :=
          ih Node.agent
            { messages := st.messages ++ d.outputs, analysis_result := d.analysis }
            (log ++ d.invoked) events (steps + 1) (Or.inl rfl)
        refine ⟨r, ?_, hcomp, by omega, extra, hev, hextra⟩
        rw [run_graph_tools_step_eq env fuel st log events steps _ _ hts]
        exact hr

theorem final_fold_keeps :
    ∀ (extra : List Msg) (acc : String),
      (∀ m ∈ extra, ∃ cnt tcs, m = Msg.ai cnt tcs ∧ tcs ≠ []) →
      extra.foldl
        (fun acc m =>
          match m with
          | Msg.ai c tcs => if tcs = [] ∧ ¬c.isEmpty then c else acc
          | _ => acc) acc = acc := by
  intro extra
  induction extra with
  | nil =>
      intro acc _
      rfl
  | cons m ms ih =>
      intro acc h
      obtain ⟨cnt, tcs, rfl, htcs⟩ := h m (by simp)
      simp only [List.foldl_cons]
      rw [if_neg (by simp [htcs])]
      exact ih acc (fun x hx => h x (by simp [hx]))

/-- C8: for every reasoner stub that always emits (dispatchable) tool
calls, the orchestration loop terminates: the fixed recursion limit of 15
bounds the run, which aborts exactly when the budget is exhausted
(`completed = false` after exactly `recursion_limit` node executions),
and the caller receives the degraded diagnostic response
"Agent did not produce a final response." — never a silent success, an
endless loop or a crash. -/
theorem loop_budget_abort (env : Env) (initial_message : Msg)
    (hcalls : ∀ msgs, (env.reasoner msgs).2 ≠ [])
    (hsafe : ∀ msgs c, c ∈ (env.reasoner msgs).2 → call_safe env c) :
    ∃ r, run_graph env recursion_limit Node.agent
        { messages := [initial_message], analysis_result := Option.none } [] [] 0 =
        Except.ok r ∧
      r.completed = false ∧ r.steps = recursion_limit ∧
      upload_response env initial_message = no_final_response := by
  obtain ⟨r, hr, hcomp, hsteps, extra, hev, hextra⟩ :=
    run_exhausts env hcalls hsafe recursion_limit Node.agent
      { messages := [initial_message], analysis_result := Option.none } [] [] 0 (Or.inl rfl)
  refine ⟨r, hr, hcomp, by simpa using hsteps, ?_⟩
  unfold upload_response
  rw [hr]
  show final_from_events r.agentEvents = no_final_response
  unfold final_from_events
  rw [hev]
  simp only [List.nil_append]
  exact final_fold_keeps extra no_final_response hextra

/-- C9: the message history is append-only: the agent step and the
tool-dispatch step each produce a history extending the previous one
without removing or reordering prior messages, and hence along any run of
the compiled graph the initial history is an unchanged prefix of the
final one. -/
theorem history_append_only (env : Env) :
    (∀ st, ∃ t, (agent_node env st).messages = st.messages ++ t) ∧
    (∀ st st2 blog, tools_step env st = Except.ok (st2, blog) →
       ∃ t, st2.messages = st.messages ++ t) ∧
    (∀ fuel node st log events steps r,
       run_graph env fuel node st log events steps = Except.ok r →
       ∃ t, r.state.messages = st.messages ++ t) := by
  have h2 : ∀ st st2 blog, tools_step env st = Except.ok (st2, blog) →
      ∃ t, st2.messages = st.messages ++ t := by
    intro st st2 blog h
    unfold tools_step at h
    cases htn : tool_node env st with
    | error e =>
        rw [htn] at h
        exact Except.noConfusion h
    | ok d =>
        rw [htn] at h
        injection h with h
        have h1 : st2 = { messages := st.messages ++ d.outputs, analysis_result := d.analysis } :=
          (congrArg Prod.fst h).symm
        subst h1
        exact ⟨d.outputs, rfl⟩
  refine ⟨fun st => ⟨_, rfl⟩, h2, ?_⟩
  intro fuel
  induction fuel with
  | zero =>
      intro node st log events steps r h
      unfold run_graph at h
      cases node with
      | endNode =>
          injection h with h
          subst h
          exact ⟨[], by simp⟩
      | agent =>
          injection h with h
          subst h
          exact ⟨[], by simp⟩
      | tools =>
          injection h with h
          subst h
          exact ⟨[], by simp⟩
  | succ fuel ih =>
      intro node st log events steps r h
      unfold run_graph at h
      cases node with
      | endNode =>
          injection h with h
          subst h
          exact ⟨[], by simp⟩
      | agent =>
          obtain ⟨t, ht⟩ := ih _ _ _ _ _ r h
          exact ⟨Msg.ai (env.reasoner st.messages).1 (env.reasoner st.messages).2 :: t,
            by rw [ht]; simp [agent_node]⟩
      | tools =>
          cases hts : tools_step env st with
          | error e =>
              rw [hts] at h
              exact Except.noConfusion h
          | ok p =>
              obtain ⟨st2, blog⟩ := p
              rw [hts] at h
              obtain ⟨t1, ht1⟩ := h2 st st2 blog hts
              obtain ⟨t, ht⟩ := ih _ _ _ _ _ r h
              exact ⟨t1 ++ t, by rw [ht, ht1]; simp⟩

/-- The stub environment with a conflicting (unique-key violating) database. -/
def env7 : Env := { stubEnv with db := DbOutcome.integrityError }

/-- A persistence call whose mapped record misses a required field. -/
def cMissing : ToolCall := ⟨("insert_id_card_tool"), [(("data"), PyVal.dict dataNoNama)], ("k2")⟩

/-- A well-formed, fully bindable persistence call that will hit the
storage conflict. -/
def cConflict : ToolCall := ⟨("insert_id_card_tool"), [(("data"), PyVal.dict dataFull)], ("k3")⟩

/-- A state whose last message batches a malformed-argument call, a
missing-field call and a storage-conflict call. -/
def st7 : AgentState := ⟨[Msg.ai ("") [cBad, cMissing, cConflict]], Option.none⟩

/-- Closed instantiation of `dispatch_converts_failures` on a batch
exhibiting a malformed stringified argument, a missing mapped field and
a storage conflict. -/
theorem dispatch_converts_failures_witness :
    ∃ d, tool_node env7 st7 = Except.ok d ∧
      d.outputs.map msgCallId = (last_tool_calls st7.messages).map ToolCall.id :=
  dispatch_converts_failures env7 st7 (by
    intro c hc
    rw [show last_tool_calls st7.messages = [cBad, cMissing, cConflict] from rfl] at hc
    rcases List.mem_cons.mp hc with rfl | hc
    · exact ⟨by decide, fun _ => Or.inl ⟨("\x7bbad"), rfl, rfl⟩⟩
    rcases List.mem_cons.mp hc with rfl | hc
    · exact ⟨by decide, fun _ => Or.inr ⟨dataNoNama, rejectResult (["nama"]), rfl, rfl⟩⟩
    rcases List.mem_cons.mp hc with rfl | hc
    · exact ⟨by decide, fun _ => Or.inr ⟨dataFull,
        PyVal.dict [("status", PyVal.str ("error")),
                    ("error", PyVal.str ("This NIK already exists in the database."))],
        rfl, rfl⟩⟩
    · exact absurd hc (List.not_mem_nil c))

/-- A persistence call whose payload is schema-conformant (a dict) but
whose issuance field is a truthy non-string, reaching the split at
database_tools.py lines 86–90 outside any `try`. -/
def cRaise : ToolCall :=
  ⟨("insert_id_card_tool"),
   [(("data"),
     PyVal.dict [(("Place and Date of Creation"), PyVal.dict [(("a"), PyVal.str ("b"))])])],
   ("r1")⟩

/-- A state whose last message carries the raising persistence call. -/
def stRaise : AgentState := ⟨[Msg.ai ("") [cRaise]], Option.none⟩

/-- The stub environment with a reasoner that emits the raising call. -/
def envRaise : Env := { stubEnv with reasoner := fun _ => ("", [cRaise]) }

/-- C7 counterexample: a registry-resolvable, schema-conformant
persistence call whose `data` carries a truthy non-string issuance field
hits the issuance split outside the `try` (database_tools.py lines
86–90): the `AttributeError` escapes the capability, crosses the dispatch
layer uncaught, aborts the graph run, and is seen again only by the
`/upload` handler's outer catch — refuting the claim that no exception
raised during a per-call capability invocation ever crosses from the
dispatch layer into the loop's control flow. -/
theorem dispatch_exception_escapes_cex :
    tool_node stubEnv stRaise =
      Except.error ("AttributeError: object has no attribute split") ∧
    tools_step stubEnv stRaise =
      Except.error ("AttributeError: object has no attribute split") ∧
    run_graph envRaise 2 Node.agent
        { messages := [Msg.human ("go")], analysis_result := Option.none } [] [] 0 =
      Except.error ("AttributeError: object has no attribute split") ∧
    upload_response envRaise (Msg.human ("go")) =
      "An error occurred: AttributeError: object has no attribute split" :=
  ⟨rfl, rfl, rfl, rfl⟩

/-- The stub environment with a reasoner that always asks for another
analysis call. -/
def stubEnvLoop : Env :=
  { stubEnv with reasoner := fun _ => ("thinking", [⟨("analyze_id_card_tool"), [], ("c1")⟩]) }

/-- Closed instantiation of `loop_budget_abort` at a reasoner stub that
always emits a tool call. -/
theorem loop_budget_abort_witness :
    ∃ r, run_graph stubEnvLoop recursion_limit Node.agent
        { messages := [Msg.human ("go")], analysis_result := Option.none } [] [] 0 =
        Except.ok r ∧
      r.completed = false ∧ r.steps = recursion_limit ∧
      upload_response stubEnvLoop (Msg.human ("go")) = no_final_response :=
  loop_budget_abort stubEnvLoop (Msg.human ("go"))
    (fun _ => List.cons_ne_nil _ _)
    (fun msgs c hc => by
      rw [show (stubEnvLoop.reasoner msgs).2 =
        [⟨("analyze_id_card_tool"), [], ("c1")⟩] from rfl] at hc
      rcases List.mem_singleton.mp hc with rfl
      exact ⟨by decide, fun h => absurd h (by decide)⟩)

/-- A state whose last message calls the notification tool. -/
def st9 : AgentState :=
  ⟨[Msg.ai ("") [⟨("notify_fraud_tool"), [], ("n1")⟩]], Option.none⟩

/-- The state after dispatching `st9`: the prior history plus the tool
result. -/
def st9' : AgentState :=
  ⟨[Msg.ai ("") [⟨("notify_fraud_tool"), [], ("n1")⟩],
    Msg.tool ("\x7b'status': 'success'\x7d") ("n1")], Option.none⟩

/-- Closed instantiation of `history_append_only` at a concrete dispatch
and a zero-step run. -/
theorem history_append_only_witness :
    (∃ t, st9'.messages = st9.messages ++ t) ∧
    (∃ t, st9.messages = st9.messages ++ t) :=
  ⟨(history_append_only stubEnv).2.1 st9 st9' [(("notify_fraud_tool"), [])] rfl,
   (history_append_only stubEnv).2.2 0 Node.endNode st9 [] [] 0
     { state := st9, invoked := [], agentEvents := [], completed := true, steps := 0 } rfl⟩

end IdCard
